import Mathlib

/-!
Shallow embedding of the map widget in src/widget/map.go (package widget)
of the fyne-x repository, together with proofs of the spec claims about
its viewport / tile arithmetic, zoom and pan operations, buffer
management and compositing.

Conventions:
* Go type int is modelled as Int (the claims never exercise 64-bit
  overflow).
* Go division a / b truncates toward zero; it is modelled by goDiv
  (Int.tdiv), never by the ediv notation of Lean.
* The pixel buffer (a Go image.NRGBA) is modelled as dimensions plus a
  total pixel function; the nil initial buffer of a fresh Map is
  modelled as an empty 0 times 0 buffer.
* getTile and newMapButton live in repository files that are not under
  src/; following the spec they are modelled as collaborator parameters
  (TileSource, Resampler) of draw.
-/

namespace FyneXMap

/-- One pixel in the 16-bit alpha-premultiplied colour space that
golang.org/x/image/draw works in (each channel conceptually in
0..65535; the arithmetic below never needs the upper bound). -/
structure Pixel where
  r : Nat
  g : Nat
  b : Nat
  a : Nat
  deriving Repr, DecidableEq

/-- Porter-Duff over on one channel in the 16-bit space of
golang.org/x/image/draw: d = s + d * (0xffff - sa) / 0xffff. -/
def overChannel (s d sa : Nat) : Nat :=
  s + d * (65535 - sa) / 65535

/-- Porter-Duff over on a whole pixel, the draw.Over operator used at
src/widget/map.go line 145. -/
def overPixel (s d : Pixel) : Pixel :=
  ⟨overChannel s.r d.r s.a, overChannel s.g d.g s.a,
   overChannel s.b d.b s.a, overChannel s.a d.a s.a⟩

/-- A fetched tile image: a total pixel function over its own
coordinates (the code only reads the 0..tileSize square). -/
def TileImage : Type := Int → Int → Pixel

/-- The mutable output buffer, Go image.NRGBA: dimensions plus pixel
contents. -/
structure PixelBuffer where
  width : Int
  height : Int
  pix : Int → Int → Pixel

/-- image.NewNRGBA(image.Rect(0, 0, w, h)): a fresh buffer whose pixels
are all the zero value (transparent black), src/widget/map.go line 111. -/
def newBuffer (w h : Int) : PixelBuffer :=
  ⟨w, h, fun _ _ => ⟨0, 0, 0, 0⟩⟩

/-- The Map widget state, struct Map of src/widget/map.go lines 24-32.
The http.Client field cl takes no part in any claim and is dropped; the
BaseWidget embedding is GUI glue and likewise dropped. -/
structure Map where
  pixels : PixelBuffer
  w : Int
  h : Int
  zoom : Int
  x : Int
  y : Int

/-- NewMap (line 35): all numeric fields are Go zero values and the nil
pixels pointer is modelled as an empty buffer. -/
def newMap : Map :=
  { pixels := newBuffer 0 0, w := 0, h := 0, zoom := 0, x := 0, y := 0 }

/-- Go integer division truncates toward zero. -/
def goDiv (a b : Int) : Int := a.tdiv b

/-- The zoom-in button callback, src/widget/map.go lines 55-63: refuse
at zoom 19 or above, otherwise increment zoom and double both pan
coordinates. -/
def zoomIn (m : Map) : Map :=
  if 19 ≤ m.zoom then m
  else { m with zoom := m.zoom + 1, x := m.x * 2, y := m.y * 2 }

/-- The zoom-out button callback, lines 64-72: refuse at zoom 0 or
below, otherwise decrement zoom and halve both pan coordinates with
truncation toward zero. -/
def zoomOut (m : Map) : Map :=
  if m.zoom ≤ 0 then m
  else { m with zoom := m.zoom - 1, x := goDiv m.x 2, y := goDiv m.y 2 }

/-- The move-up button callback (line 75): y decreases by one tile. -/
def panUp (m : Map) : Map := { m with y := m.y - 1 }

/-- The navigate-back (pan left) button callback (line 79): x decreases
by one tile. -/
def panLeft (m : Map) : Map := { m with x := m.x - 1 }

/-- The navigate-next (pan right) button callback (line 83): x increases
by one tile. -/
def panRight (m : Map) : Map := { m with x := m.x + 1 }

/-- The move-down button callback (line 87): y increases by one tile. -/
def panDown (m : Map) : Map := { m with y := m.y + 1 }

/-- Lines 99-107 of draw: the effective pixel scale. none models a nil
canvas (scale stays 1); some s models int(c.Scale()) which is then
clamped below by 1. The effective tile edge is always 256 * effScale. -/
def effScale : Option Int → Int
  | none => 1
  | some s => if s < 1 then 1 else s

/-- tileSize = 256 (line 21) scaled for display density (line 107). -/
def tilePx (cscale : Option Int) : Int := 256 * effScale cscale

/-- Line 110 condition: a new buffer is allocated exactly when the
requested dimensions differ from the stored m.w, m.h fields. -/
def reallocates (m : Map) (w h : Int) : Bool :=
  decide (m.w ≠ w) || decide (m.h ≠ h)

/-- Lines 114-119: screen offset of the centre tile. goDiv matches the
Go truncating division on the possibly negative w - tileSize*2. -/
def midTile (m : Map) (w h : Int) (cscale : Option Int) : Int × Int :=
  let t := tilePx cscale
  let mtx := goDiv (w - t * 2) 2
  let mty := goDiv (h - t * 2) 2
  if m.zoom = 0 then (mtx + goDiv t 2, mty + goDiv t 2) else (mtx, mty)

/-- Line 121: count = 1 << zoom, the tiles per axis. Negative zoom never
occurs (the callbacks keep zoom in 0..19 from the zero start; Go would
panic on a negative shift), and toNat makes that branch total. -/
def tileCount (zoom : Int) : Int := (2 : Int) ^ zoom.toNat

/-- int(float32(count)/2 - 0.5) of lines 122-123. For count = 2 ^ z with
0 ≤ z ≤ 19 the float32 arithmetic is exact (2 ^ (z-1) - 0.5 needs z + 1
mantissa bits, within float32 precision for z ≤ 24) and truncation
toward zero of the nonnegative result gives (count - 1) / 2: it is 0 for
count = 1 and 2 ^ (z-1) - 1 for z ≥ 1. All divisions agree on
nonnegative operands. -/
def halfCenterOffset (count : Int) : Int := goDiv (count - 1) 2

/-- Lines 122-123: the effective centre tile index (mx, my). -/
def centerTile (m : Map) : Int × Int :=
  (m.x + halfCenterOffset (tileCount m.zoom),
   m.y + halfCenterOffset (tileCount m.zoom))

/-- int(math.Ceil(float64 a / float64 b)) for b > 0: the ceiling of the
rational quotient, via ceil q = -floor (-q); exact since float64
represents the operands and math.Ceil returns an integral value. -/
def ceilDivInt (a b : Int) : Int := -((-a).fdiv b)

/-- Lines 124-125: the first candidate tile column and row. -/
def firstTile (m : Map) (w h : Int) (cscale : Option Int) : Int × Int :=
  let t := tilePx cscale
  let c := centerTile m
  let mid := midTile m w h cscale
  (c.1 - ceilDivInt mid.1 t, c.2 - ceilDivInt mid.2 t)

/-- The values one index of the loop header on line 127 (or 128) takes:
k = x - first runs through 0, 1, ... while k * t ≤ limit, where limit is
w + t (resp. h + t). For t > 0 that is k ≤ limit / t when limit ≥ 0 and
no iteration at all otherwise. -/
def tileRange (first limit t : Int) : List Int :=
  if 0 ≤ limit then
    (List.range (limit.toNat / t.toNat + 1)).map (fun k => first + (k : Int))
  else []

/-- The (x, y) pairs the nested loops of lines 127-128 enumerate, in
iteration order (x outer, y inner). -/
def candidateTiles (m : Map) (w h : Int) (cscale : Option Int) :
    List (Int × Int) :=
  let t := tilePx cscale
  let f := firstTile m w h cscale
  ((tileRange f.1 (w + t) t).map (fun x =>
    (tileRange f.2 (h + t) t).map (fun y => (x, y)))).flatten

/-- The guard of line 129, negated: the candidate survives (is not
skipped by continue) exactly when it lies in the zoom-level grid. -/
def inGrid (count : Int) (xy : Int × Int) : Bool :=
  !(decide (xy.1 < 0) || decide (xy.2 < 0) ||
    decide (count ≤ xy.1) || decide (count ≤ xy.2))

/-- The tiles for which draw actually calls getTile: the candidates that
pass the line 129 bounds filter. -/
def fetchedTiles (m : Map) (w h : Int) (cscale : Option Int) :
    List (Int × Int) :=
  (candidateTiles m w h cscale).filter (inGrid (tileCount m.zoom))

/-- Lines 139-140: destination position of tile (x, y). -/
def tilePos (midX midY mx my t : Int) (xy : Int × Int) : Int × Int :=
  (midX + (xy.1 - mx) * t, midY + (xy.2 - my) * t)

/-- Line 145, draw.Copy(dst, pos, src, image.Rect(0,0,t,t), draw.Over):
composite the t times t square of src onto dst at pos with the Over
operator, clipped to the destination bounds as draw.Copy does. -/
def drawCopy (dst : PixelBuffer) (posX posY : Int) (src : TileImage)
    (t : Int) : PixelBuffer :=
  { dst with pix := fun px py =>
      if 0 ≤ px ∧ px < dst.width ∧ 0 ≤ py ∧ py < dst.height ∧
         posX ≤ px ∧ px < posX + t ∧ posY ≤ py ∧ py < posY + t then
        overPixel (src (px - posX) (py - posY)) (dst.pix px py)
      else dst.pix px py }

/-- Map.draw, src/widget/map.go lines 98-150. getTile is the TileSource
collaborator (modelled from the spec: fetch(x, y, zoom) returns a
TileImage or a FetchError, here Option; the real getTile is in a
repository file outside src/). resample is the Resampler collaborator
(the external resize.Resize of line 143). draw writes only m.pixels;
in particular it never assigns m.w or m.h. -/
def draw (m : Map) (w h : Int) (cscale : Option Int)
    (getTile : Int → Int → Int → Option TileImage)
    (resample : TileImage → Int → TileImage) : Map :=
  let scale := effScale cscale
  let t := tilePx cscale
  let buf := if reallocates m w h then newBuffer w h else m.pixels
  let mid := midTile m w h cscale
  let count := tileCount m.zoom
  let c := centerTile m
  let body := fun (b : PixelBuffer) (xy : Int × Int) =>
    if inGrid count xy then
      match getTile xy.1 xy.2 m.zoom with
      | none => b
      | some src =>
        let pos := tilePos mid.1 mid.2 c.1 c.2 t xy
        let scaled := if 1 < scale then resample src t else src
        drawCopy b pos.1 pos.2 scaled t
    else b
  { m with pixels := (candidateTiles m w h cscale).foldl body buf }

/-- A TileSource in which every fetch fails. -/
def failingSource : Int → Int → Int → Option TileImage := fun _ _ _ => none

/-- A trivial Resampler (never invoked at pixel scale 1). -/
def noResample : TileImage → Int → TileImage := fun img _ => img

/-- Membership in the t times t destination rectangle anchored at pos,
as written to by drawCopy. -/
abbrev InTileRect (pos : Int × Int) (t : Int) (p : Int × Int) : Prop :=
  pos.1 ≤ p.1 ∧ p.1 < pos.1 + t ∧ pos.2 ≤ p.2 ∧ p.2 < pos.2 + t

/-- The spec scenario state: zoom 0, centre (0, 0); the buffer fields
are the fresh-widget values. -/
def scenarioMap : Map :=
  { pixels := newBuffer 0 0, w := 0, h := 0, zoom := 0, x := 0, y := 0 }

/-- A reachable state at the zoom ceiling with a nonzero pan offset
(reached from newMap by 19 zoom-in presses and pans). -/
def ceilingMap : Map :=
  { pixels := newBuffer 0 0, w := 0, h := 0, zoom := 19, x := 10, y := 0 }

/-- A state at the zoom ceiling, for the clamp no-op claims. -/
def clampHighMap : Map :=
  { pixels := newBuffer 0 0, w := 0, h := 0, zoom := 19, x := 5, y := 7 }

/-- A state at the zoom floor, for the clamp no-op claims. -/
def clampLowMap : Map :=
  { pixels := newBuffer 0 0, w := 0, h := 0, zoom := 0, x := 5, y := 7 }

/-- A mid-zoom state with pan offsets of both signs. -/
def midZoomMap : Map :=
  { pixels := newBuffer 0 0, w := 0, h := 0, zoom := 5, x := -7, y := 3 }

/- ------------------------------------------------------------------ -/
/- Helper lemmas                                                       -/
/- ------------------------------------------------------------------ -/

/-- The clamped display scale is always at least 1 (lines 99-106). -/
theorem one_le_effScale (c : Option Int) : 1 ≤ effScale c := by
  cases c with
  | none => exact le_refl 1
  | some s =>
    show 1 ≤ if s < 1 then 1 else s
    split <;> omega

/-- The effective tile edge is positive. -/
theorem tilePx_pos (c : Option Int) : 0 < tilePx c := by
  have h := one_le_effScale c
  unfold tilePx
  omega

/-- The draw.Over operator on a fully opaque source pixel replaces the
destination pixel with the source pixel exactly. -/
theorem overPixel_opaque (s d : Pixel) (hs : s.a = 65535) :
    overPixel s d = s := by
  obtain ⟨r, g, b, a⟩ := s
  simp only at hs
  subst hs
  unfold overPixel overChannel
  simp

/-- Doubling then truncated halving of the pan coordinates is exact:
for zoom in 0..18 neither clamp fires and the round trip is the
identity on the whole state. -/
theorem zoomOut_zoomIn_exact (m : Map) (h0 : 0 ≤ m.zoom)
    (h18 : m.zoom ≤ 18) : zoomOut (zoomIn m) = m := by
  obtain ⟨p, ww, hh, z, x, y⟩ := m
  simp only at h0 h18
  have hx : goDiv (x * 2) 2 = x := Int.mul_tdiv_cancel x (by norm_num)
  have hy : goDiv (y * 2) 2 = y := Int.mul_tdiv_cancel y (by norm_num)
  simp only [zoomIn]
  rw [if_neg (by omega)]
  simp only [zoomOut]
  rw [if_neg (by omega)]
  rw [show z + 1 - 1 = z by omega, hx, hy]

/-- Iterating pan-right n times adds n to the x coordinate. -/
theorem panRight_iterate_x (m : Map) (n : Nat) :
    (panRight^[n] m).x = m.x + n := by
  induction n with
  | zero => simp
  | succ k ih =>
    rw [Function.iterate_succ_apply']
    simp only [panRight]
    rw [ih]
    push_cast
    ring

/-- Iterating pan-left n times subtracts n from the x coordinate. -/
theorem panLeft_iterate_x (m : Map) (n : Nat) :
    (panLeft^[n] m).x = m.x - n := by
  induction n with
  | zero => simp
  | succ k ih =>
    rw [Function.iterate_succ_apply']
    simp only [panLeft]
    rw [ih]
    push_cast
    ring

/- ------------------------------------------------------------------ -/
/- Claim theorems                                                      -/
/- ------------------------------------------------------------------ -/

/-- C1: every tile the draw loop fetches lies inside the zoom-level
grid, 0 ≤ x < 2 ^ z and 0 ≤ y < 2 ^ z, and every candidate outside the
grid on either axis is rejected by the line 129 guard, hence never
fetched (no wraparound). -/
theorem fetched_tiles_within_grid (m : Map) (w h : Int)
    (cscale : Option Int) (hz : 0 ≤ m.zoom) :
    (∀ xy ∈ fetchedTiles m w h cscale,
      0 ≤ xy.1 ∧ xy.1 < tileCount m.zoom ∧
      0 ≤ xy.2 ∧ xy.2 < tileCount m.zoom) ∧
    (∀ xy ∈ candidateTiles m w h cscale,
      ¬(0 ≤ xy.1 ∧ xy.1 < tileCount m.zoom ∧
        0 ≤ xy.2 ∧ xy.2 < tileCount m.zoom) →
      xy ∉ fetchedTiles m w h cscale) := by
  constructor
  · intro xy hmem
    simp only [fetchedTiles] at hmem
    have h1 : inGrid (tileCount m.zoom) xy = true :=
      (List.mem_filter.mp hmem).2
    simp [inGrid] at h1
    omega
  · intro xy _ hbad hmem
    simp only [fetchedTiles] at hmem
    have h1 : inGrid (tileCount m.zoom) xy = true :=
      (List.mem_filter.mp hmem).2
    simp [inGrid] at h1
    exact hbad (by omega)

/-- C1 witness: in the 512 by 512 zoom 0 scenario, the tile (0, 0) is
fetched and indeed satisfies the grid bounds at zoom 0. -/
theorem fetched_tiles_within_grid_witness :
    0 ≤ ((0, 0) : Int × Int).1 ∧
    ((0, 0) : Int × Int).1 < tileCount 0 ∧
    0 ≤ ((0, 0) : Int × Int).2 ∧
    ((0, 0) : Int × Int).2 < tileCount 0 :=
  (fetched_tiles_within_grid scenarioMap 512 512 none (by decide)).1
    (0, 0) (by decide)

/-- C2: contrary to the reuse claim, the code reallocates the pixel
buffer on every draw call with nonzero requested dimensions, because
Map.draw never assigns m.w or m.h: after a first draw at 512 by 512
the stored dimensions are still 0, so a second draw at the unchanged
512 by 512 triggers the line 110-111 allocation again instead of
reusing the buffer. -/
theorem draw_reallocates_on_unchanged_dimensions :
    (draw newMap 512 512 none failingSource noResample).w = 0 ∧
    (draw newMap 512 512 none failingSource noResample).h = 0 ∧
    reallocates (draw newMap 512 512 none failingSource noResample)
      512 512 = true := by
  refine ⟨rfl, rfl, ?_⟩
  decide

/-- C3: compositing a fetched tile with the draw.Over operator of line
145 overwrites each destination pixel of the tile rectangle (inside
the buffer bounds) with the corresponding source pixel, with no
blending with prior content, for every fully opaque tile image; tile
images are fully opaque by the TileSource contract of the spec. -/
theorem drawCopy_overwrites_opaque (dst : PixelBuffer)
    (posX posY t : Int) (src : TileImage) (px py : Int)
    (hop : ∀ u v, (src u v).a = 65535)
    (hx0 : 0 ≤ px) (hxw : px < dst.width)
    (hy0 : 0 ≤ py) (hyh : py < dst.height)
    (hin : InTileRect (posX, posY) t (px, py)) :
    (drawCopy dst posX posY src t).pix px py =
      src (px - posX) (py - posY) := by
  obtain ⟨ha, hb, hc, hd⟩ := hin
  show (if 0 ≤ px ∧ px < dst.width ∧ 0 ≤ py ∧ py < dst.height ∧
        posX ≤ px ∧ px < posX + t ∧ posY ≤ py ∧ py < posY + t then
      overPixel (src (px - posX) (py - posY)) (dst.pix px py)
    else dst.pix px py) = src (px - posX) (py - posY)
  rw [if_pos ⟨hx0, hxw, hy0, hyh, ha, hb, hc, hd⟩]
  exact overPixel_opaque _ _ (hop _ _)

/-- C3 witness: a concrete opaque tile pasted at (10, 10) shows up
verbatim at pixel (20, 30). -/
theorem drawCopy_overwrites_opaque_witness :
    (drawCopy (newBuffer 100 100) 10 10
        (fun _ _ => ⟨1, 2, 3, 65535⟩) 256).pix 20 30 =
      (⟨1, 2, 3, 65535⟩ : Pixel) :=
  drawCopy_overwrites_opaque (newBuffer 100 100) 10 10 256
    (fun _ _ => ⟨1, 2, 3, 65535⟩) 20 30 (fun _ _ => rfl)
    (by decide) (by decide) (by decide) (by decide) (by decide)

/-- C4 counterexample: at the reachable state zoom 19, centre x 10,
the zoom-in press is refused by the 19 clamp yet the following
zoom-out still halves the centre, landing at x 5, more than one tile
away from the original 10: the claimed bound fails for z = 19 although
19 satisfies z ≥ 1. -/
theorem zoom_roundtrip_drift_at_ceiling :
    (zoomOut (zoomIn ceilingMap)).zoom = 18 ∧
    (zoomOut (zoomIn ceilingMap)).x = 5 ∧ ceilingMap.x = 10 ∧
    ¬(ceilingMap.x - 1 ≤ (zoomOut (zoomIn ceilingMap)).x ∧
      (zoomOut (zoomIn ceilingMap)).x ≤ ceilingMap.x + 1) := by
  decide

/-- C4 amended: for any state with 1 ≤ zoom ≤ 18, so that the zoom-in
press is not refused by the 19 clamp, zoom-in followed by zoom-out
brings both centre coordinates back within one tile of the original
(the round trip is in fact exact). -/
theorem zoom_roundtrip_within_one (m : Map) (h1 : 1 ≤ m.zoom)
    (h18 : m.zoom ≤ 18) :
    m.x - 1 ≤ (zoomOut (zoomIn m)).x ∧
    (zoomOut (zoomIn m)).x ≤ m.x + 1 ∧
    m.y - 1 ≤ (zoomOut (zoomIn m)).y ∧
    (zoomOut (zoomIn m)).y ≤ m.y + 1 := by
  rw [zoomOut_zoomIn_exact m (by omega) h18]
  omega

/-- C4 amended witness: the round trip at a concrete mid-zoom state
stays within one tile of the original centre. -/
theorem zoom_roundtrip_within_one_witness :
    midZoomMap.x - 1 ≤ (zoomOut (zoomIn midZoomMap)).x ∧
    (zoomOut (zoomIn midZoomMap)).x ≤ midZoomMap.x + 1 ∧
    midZoomMap.y - 1 ≤ (zoomOut (zoomIn midZoomMap)).y ∧
    (zoomOut (zoomIn midZoomMap)).y ≤ midZoomMap.y + 1 :=
  zoom_roundtrip_within_one midZoomMap (by decide) (by decide)

/-- C5: evaluation of the code at the failing input of the claim.
Error containment itself holds (a draw in which every fetch fails
composites nothing and aborts nothing), but the requested-dimensions
part fails on the code: because Map.draw never assigns m.w and m.h, a
draw at 0 by 0 following a draw at 512 by 512 skips the line 110
reallocation (0 equals the never-updated stored fields) and returns
the stale 512 by 512 buffer instead of one with the requested
dimensions. -/
theorem stale_buffer_on_zero_size_draw :
    (draw (draw newMap 512 512 none failingSource noResample)
        0 0 none failingSource noResample).pixels.width = 512 ∧
    (draw (draw newMap 512 512 none failingSource noResample)
        0 0 none failingSource noResample).pixels.height = 512 := by
  decide

/-- C6: destination rectangles of two distinct tiles in the same draw
are disjoint: positions differ by a nonzero whole multiple of the
positive tile edge. -/
theorem tile_rects_disjoint (midX midY mx my : Int)
    (cscale : Option Int) (xy1 xy2 : Int × Int) (hne : xy1 ≠ xy2)
    (p : Int × Int)
    (hmem : InTileRect (tilePos midX midY mx my (tilePx cscale) xy1)
      (tilePx cscale) p) :
    ¬InTileRect (tilePos midX midY mx my (tilePx cscale) xy2)
      (tilePx cscale) p := by
  intro hmem2
  have ht : 0 < tilePx cscale := tilePx_pos cscale
  set t := tilePx cscale
  obtain ⟨a1, b1, c1, d1⟩ := hmem
  obtain ⟨a2, b2, c2, d2⟩ := hmem2
  simp only [tilePos] at a1 b1 c1 d1 a2 b2 c2 d2
  have key : ∀ u v : Int, u < v → u * t + t ≤ v * t := by
    intro u v huv
    have h3 : (u + 1) * t ≤ v * t :=
      mul_le_mul_of_nonneg_right (by omega) ht.le
    rw [add_one_mul] at h3
    exact h3
  have hcases : xy1.1 ≠ xy2.1 ∨ xy1.2 ≠ xy2.2 := by
    by_contra hcon
    push_neg at hcon
    exact hne (Prod.ext hcon.1 hcon.2)
  rcases hcases with hx | hy
  · rcases lt_or_gt_of_ne hx with hlt | hgt
    · have := key (xy1.1 - mx) (xy2.1 - mx) (by omega)
      linarith
    · have := key (xy2.1 - mx) (xy1.1 - mx) (by omega)
      linarith
  · rcases lt_or_gt_of_ne hy with hlt | hgt
    · have := key (xy1.2 - my) (xy2.2 - my) (by omega)
      linarith
    · have := key (xy2.2 - my) (xy1.2 - my) (by omega)
      linarith

/-- C6 witness: with the zoom 0 scenario geometry, the point (10, 10)
lies in the rectangle of tile (0, 0) and therefore not in the
rectangle of the distinct tile (1, 0). -/
theorem tile_rects_disjoint_witness :
    ¬InTileRect (tilePos 0 0 0 0 (tilePx none) (1, 0)) (tilePx none)
      (10, 10) :=
  tile_rects_disjoint 0 0 0 0 none (0, 0) (1, 0) (by decide) (10, 10)
    (by decide)

/-- C7: panning right n times and then left n times returns
centerTileX exactly to its original value, for every start value and
every n. -/
theorem pan_right_left_roundtrip (m : Map) (n : Nat) :
    (panLeft^[n] (panRight^[n] m)).x = m.x := by
  rw [panLeft_iterate_x, panRight_iterate_x]
  omega

/-- C8: in the 512 by 512, zoom 0, centred, scale 1 scenario, exactly
the single tile (0, 0) survives the bounds filter, the tile edge is
256, and its rectangle is placed at offset (128, 128), centred in the
buffer. -/
theorem single_tile_centered_scenario :
    fetchedTiles scenarioMap 512 512 none = [(0, 0)] ∧
    scenarioMap.zoom = 0 ∧ tilePx none = 256 ∧
    tilePos (midTile scenarioMap 512 512 none).1
      (midTile scenarioMap 512 512 none).2
      (centerTile scenarioMap).1 (centerTile scenarioMap).2
      (tilePx none) (0, 0) = (128, 128) := by
  decide

/-- C9: the zoom clamps are no-ops on the whole state: zoom-in at 19
or above and zoom-out at 0 or below return the state unchanged, both
centre coordinates included. -/
theorem zoom_clamp_noop (m : Map) :
    (19 ≤ m.zoom → zoomIn m = m) ∧ (m.zoom ≤ 0 → zoomOut m = m) := by
  constructor
  · intro h
    unfold zoomIn
    rw [if_pos h]
  · intro h
    unfold zoomOut
    rw [if_pos h]

/-- C9 witness: the clamps act as no-ops at concrete states at the two
boundaries, leaving the centre (5, 7) untouched. -/
theorem zoom_clamp_noop_witness :
    zoomIn clampHighMap = clampHighMap ∧
    zoomOut clampLowMap = clampLowMap :=
  ⟨(zoom_clamp_noop clampHighMap).1 (by decide),
   (zoom_clamp_noop clampLowMap).2 (by decide)⟩

/-- C10: for zoom between 0 and 18 the zoom round trip is exactly the
identity on the whole state: doubling then truncated halving restores
both centre coordinates, and the zoom level returns to its start. -/
theorem zoom_roundtrip_exact_below_ceiling (m : Map) (h0 : 0 ≤ m.zoom)
    (h18 : m.zoom ≤ 18) : zoomOut (zoomIn m) = m :=
  zoomOut_zoomIn_exact m h0 h18

/-- C10 witness: the exact round trip at a concrete zoom 0 state. -/
theorem zoom_roundtrip_exact_below_ceiling_witness :
    zoomOut (zoomIn clampLowMap) = clampLowMap :=
  zoom_roundtrip_exact_below_ceiling clampLowMap (by decide) (by decide)

end FyneXMap
